import Mathlib

/-!
Verification of the AsyncQueue work-queue engine of mjs_structs.

The definitions in the first part of this file are a shallow embedding of
src/src/queue/asyncQueue.ts (the current revision of that file, declaring
QueueEvent with a started event and AsyncQueueOptions with maxConcurrent).
Asynchronous consumer functions are modelled as pure functions from an item
and a per-element attempt index to a settlement result; handler invocations
are collected into an event trace in the order they fire.

A second group of definitions, each marked `Modelled from the spec:`, models
the parts of the current AsyncQueue implementation that are not present under
src (the timeout guard, the isRunning guard on start, and the statistics
record): only their tests (src/src/__tests__/asyncQueue.test.ts) and the
README declarations for setConsumer, start, getStats, timeout and autoStart
are in the tree.
-/

namespace MJS

/-- Source type QueueResultError, the union
maxConcurrent | maxQueueSize | error of error kind strings. -/
inductive QueueResultError where
  | maxConcurrent
  | maxQueueSize
  | error
  deriving DecidableEq

/-- Source interface QueueElementError: an error kind plus a message. -/
structure QueueElementError where
  errorType : QueueResultError
  errorMessage : String
  deriving DecidableEq

/-- Source interface QueueElement: a user item with an optional error record. -/
structure QueueElement (T : Type) where
  item : T
  error : Option QueueElementError
  deriving DecidableEq

/-- Source interface AsyncQueueOptions (current revision): maxConcurrent,
maxQueueSize, maxRetries, retryDelay.  The sizes and counts are modelled as
naturals; retryDelay only feeds setTimeout sleeps and never influences
control flow or data. -/
structure AsyncQueueOptions where
  maxConcurrent : Nat
  maxQueueSize : Nat
  maxRetries : Nat
  retryDelay : Nat
  deriving DecidableEq

/-- One handler invocation.  The source fires handlers.started with a bare
element holding only the item, handlers.success with the dequeued element,
handlers.error with the element carrying an error record, and handlers.end
with a null placeholder element whose payload is never used. -/
inductive QueueEventCall (T : Type) where
  | started (item : T)
  | success (e : QueueElement T)
  | error (e : QueueElement T)
  | ended
  deriving DecidableEq

/-- Settlement of one consumer invocation: the promise resolves, or rejects
with the message of the thrown error. -/
inductive PromiseResult where
  | resolved
  | rejected (msg : String)
  deriving DecidableEq

/-- A consumer: the source processFn is an async closure; it is modelled as a
pure function of the item and of the attempt index for that element (0 for
the first invocation on an element, 1 for the first retry, ...). -/
def Consumer (T : Type) : Type := T → Nat → PromiseResult

/-- The source reads (err as Error)?.message || "Unknown error": a falsy
(empty) message is replaced by the fallback string. -/
def jsMsg (msg : String) : String :=
  if msg = "" then "Unknown error" else msg

/-- Source method enqueue (lines 181-199): if items.length + 1 would exceed
options.maxQueueSize, the item is not stored and handlers.error fires once,
synchronously, with the rejected item and the error record
(errorType maxQueueSize, message "Queue is full"); otherwise the item is
pushed at the tail wrapped with no error.  enqueue never throws: both
branches return normally.  Returns the new buffer and the fired events. -/
def enqueue {T : Type} (opts : AsyncQueueOptions) (items : List (QueueElement T))
    (x : T) : List (QueueElement T) × List (QueueEventCall T) :=
  if items.length + 1 > opts.maxQueueSize then
    (items, [QueueEventCall.error ⟨x, some ⟨QueueResultError.maxQueueSize, "Queue is full"⟩⟩])
  else
    (items ++ [⟨x, none⟩], [])

/-- Source method peek (lines 205-207): `return this.items[0].item;`.
On an empty buffer, items[0] is undefined in JavaScript and reading its
item member throws a TypeError; this is modelled as Except.error
"TypeError".  On a non-empty buffer the front item is returned; the buffer
itself is never touched (peek reads only). -/
def peek {T : Type} (items : List (QueueElement T)) : Except String T :=
  match items with
  | [] => Except.error "TypeError"
  | e :: _ => Except.ok e.item

/-- Recursion core of source method processWithRetries (lines 225-247),
with retriesLeft as the structural argument and the attempt index a
threaded through.  The source runs `while (retriesLeft > 0)`: call the
consumer; on resolution fire success and return; on rejection decrement
retriesLeft, and if it reached 0 fire handlers.error with the element
carrying errorType error and the thrown message, else sleep retryDelay and
loop.  Returns the list of consumer invocations (item, attempt) and the
fired events. -/
def processWithRetriesAux {T : Type} (consumer : Consumer T) (el : QueueElement T) :
    Nat → Nat → List (T × Nat) × List (QueueEventCall T)
  | _, 0 => ([], [])
  | a, r + 1 =>
    match consumer el.item a with
    | PromiseResult.resolved => ([(el.item, a)], [QueueEventCall.success el])
    | PromiseResult.rejected msg =>
      if r = 0 then
        ([(el.item, a)],
         [QueueEventCall.error { el with error := some ⟨QueueResultError.error, jsMsg msg⟩ }])
      else
        let rest := processWithRetriesAux consumer el (a + 1) r
        ((el.item, a) :: rest.1, rest.2)

/-- Source method processWithRetries: retriesLeft starts at
options.maxRetries (passed here as maxRetries), attempts start at index 0. -/
def processWithRetries {T : Type} (consumer : Consumer T) (el : QueueElement T)
    (maxRetries : Nat) : List (T × Nat) × List (QueueEventCall T) :=
  processWithRetriesAux consumer el 0 maxRetries

/-- Per-element step of the sequential branch of consume (lines 259-274):
when options.maxRetries is 0 the consumer runs once inside try/catch
(success fires on resolution, handlers.error with errorType error and the
thrown message on rejection); otherwise processWithRetries runs. -/
def processElement {T : Type} (opts : AsyncQueueOptions) (consumer : Consumer T)
    (el : QueueElement T) : List (T × Nat) × List (QueueEventCall T) :=
  if opts.maxRetries = 0 then
    match consumer el.item 0 with
    | PromiseResult.resolved => ([(el.item, 0)], [QueueEventCall.success el])
    | PromiseResult.rejected msg =>
      ([(el.item, 0)],
       [QueueEventCall.error { el with error := some ⟨QueueResultError.error, jsMsg msg⟩ }])
  else
    processWithRetries consumer el opts.maxRetries

/-- The sequential drain loop of consume (lines 252-275, taken when
options.maxConcurrent <= 1): while the buffer is non-empty, shift the head
element, fire handlers.started with its item, then process it fully
(processElement) before touching the next element. -/
def consumeSeqAux {T : Type} (opts : AsyncQueueOptions) (consumer : Consumer T) :
    List (QueueElement T) → List (T × Nat) × List (QueueEventCall T)
  | [] => ([], [])
  | el :: rest =>
    let here := processElement opts consumer el
    let later := consumeSeqAux opts consumer rest
    (here.1 ++ later.1, (QueueEventCall.started el.item :: here.2) ++ later.2)

/-- Source method consume in sequential mode (maxConcurrent <= 1): drain the
buffer head-first, then fire handlers.end once (line 313), whatever happened
before, even when the buffer was empty at the call. -/
def consumeSeq {T : Type} (opts : AsyncQueueOptions) (consumer : Consumer T)
    (items : List (QueueElement T)) : List (T × Nat) × List (QueueEventCall T) :=
  let run := consumeSeqAux opts consumer items
  (run.1, run.2 ++ [QueueEventCall.ended])

/-- The concurrent branch of consume (lines 276-311) spawns exactly
maxConcurrent workers; each repeatedly dequeues (items.shift, the sole
synchronization point, atomic on the single JavaScript thread) and fully
processes its claimed element, exiting when it observes an empty buffer.
The interleaving of dequeues is modelled by a schedule: the list of worker
indices in the order their dequeue calls run.  Each schedule entry removes
the current head (claimed by that worker) or, on an empty buffer, lets the
worker observe emptiness and exit.  Returns the claim trace
(worker, element) in claim order and the leftover buffer. -/
def runSched {T : Type} : List Nat → List T → List (Nat × T) × List T
  | [], buf => ([], buf)
  | _ :: ws, [] => runSched ws []
  | w :: ws, x :: rest =>
    let later := runSched ws rest
    ((w, x) :: later.1, later.2)

/-- Items of the started events of a trace, in order. -/
def startedItems {T : Type} : List (QueueEventCall T) → List T
  | [] => []
  | QueueEventCall.started x :: rest => x :: startedItems rest
  | _ :: rest => startedItems rest

/-- Elements of the success events of a trace, in order. -/
def successEvents {T : Type} : List (QueueEventCall T) → List (QueueElement T)
  | [] => []
  | QueueEventCall.success e :: rest => e :: successEvents rest
  | _ :: rest => successEvents rest

/-- Elements of the error events of a trace, in order. -/
def errorEvents {T : Type} : List (QueueEventCall T) → List (QueueElement T)
  | [] => []
  | QueueEventCall.error e :: rest => e :: errorEvents rest
  | _ :: rest => errorEvents rest

/-- Number of end events in a trace. -/
def endedCount {T : Type} : List (QueueEventCall T) → Nat
  | [] => 0
  | QueueEventCall.ended :: rest => endedCount rest + 1
  | _ :: rest => endedCount rest

/-- Modelled from the spec: outcome of one timeout-guarded consumer attempt
of the current implementation, which is missing from src (only the README
declaration of the timeout option and the timeout assertions of
src/src/__tests__/asyncQueue.test.ts are in the tree).  The attempt either
settles with resolution before the timer, settles with a rejection before
the timer, or the timer of the configured timeout milliseconds fires
first. -/
inductive AttemptOutcome where
  | ok
  | fail (msg : String)
  | timedOut
  deriving DecidableEq

/-- Modelled from the spec: a consumer under the timeout guard, as a pure
function of the item and the per-element attempt index. -/
def GuardedConsumer (T : Type) : Type := T → Nat → AttemptOutcome

/-- Modelled from the spec: the timeout guard of the current implementation
(spec section 4.5), missing from src.  A timer-first attempt is treated as
a failed attempt; the later settlement of the consumer is discarded.  Per
the test suite (asyncQueue.test.ts, should handle timeouts correctly), the
recorded failure carries the generic errorType error of the source type
QueueResultError, which has no separate timeout member, with the fixed
message "Timeout".  Returns none for a successful attempt and the failure
message otherwise. -/
def guardResult : AttemptOutcome → Option String
  | AttemptOutcome.ok => none
  | AttemptOutcome.fail msg => some (jsMsg msg)
  | AttemptOutcome.timedOut => some "Timeout"

/-- Modelled from the spec: the retry loop of the current implementation
(spec section 4.6), missing from src.  retriesLeft starts at maxRetries so
the total number of attempts is maxRetries + 1 (the test suite asserts 3
attempts under maxRetries = 2): a successful attempt fires success; a
failed attempt with no retries left fires handlers.error once with
errorType error and the last failure message; otherwise the worker sleeps
retryDelay and retries.  The structural argument is retriesLeft, the
attempt index a is threaded through. -/
def retryLoopSpec {T : Type} (consumer : GuardedConsumer T) (el : QueueElement T) :
    Nat → Nat → List (QueueEventCall T)
  | a, 0 =>
    match guardResult (consumer el.item a) with
    | none => [QueueEventCall.success el]
    | some msg =>
      [QueueEventCall.error { el with error := some ⟨QueueResultError.error, msg⟩ }]
  | a, r + 1 =>
    match guardResult (consumer el.item a) with
    | none => [QueueEventCall.success el]
    | some _ => retryLoopSpec consumer el (a + 1) r

/-- Modelled from the spec: the drain of the current implementation over a
buffer, missing from src: each dequeued element fires started and is then
run through the timeout-guarded retry loop with retriesLeft = maxRetries. -/
def drainSpec {T : Type} (consumer : GuardedConsumer T) (maxRetries : Nat) :
    List (QueueElement T) → List (QueueEventCall T)
  | [] => []
  | el :: rest =>
    (QueueEventCall.started el.item :: retryLoopSpec consumer el 0 maxRetries)
      ++ drainSpec consumer maxRetries rest

/-- Modelled from the spec: run state of the current implementation (spec
section 3), missing from src: the boolean isRunning plus the buffer. -/
structure RunState (T : Type) where
  isRunning : Bool
  buffer : List (QueueElement T)
  deriving DecidableEq

/-- Modelled from the spec: the guarded entry point start of the current
implementation (spec section 4.3), missing from src (the README declares
start and the test suite awaits it).  If isRunning is already true the call
returns immediately as a no-op with no events; otherwise the flag is set,
the buffer is drained, the end event fires once, and the flag is cleared
before returning.  Returns the state after the call and the events the call
itself fired. -/
def startSpec {T : Type} (consumer : GuardedConsumer T) (maxRetries : Nat)
    (s : RunState T) : RunState T × List (QueueEventCall T) :=
  if s.isRunning then
    (s, [])
  else
    (⟨false, []⟩, drainSpec consumer maxRetries s.buffer ++ [QueueEventCall.ended])

/-- Items of the terminal events (success or error) of a trace, in order:
each element of a drain is processed to completion exactly when one
terminal event carrying its item fires. -/
def terminalItems {T : Type} : List (QueueEventCall T) → List T
  | [] => []
  | QueueEventCall.success e :: rest => e.item :: terminalItems rest
  | QueueEventCall.error e :: rest => e.item :: terminalItems rest
  | _ :: rest => terminalItems rest

/-- Modelled from the spec: the statistics record of the current
implementation (spec sections 3 and 4.8), missing from src (only the
getStats assertions of the test suite and the README declaration are in the
tree).  Counters are naturals; the two rates, floating point numbers in the
source, are modelled as exact rationals. -/
structure AsyncQueueStats where
  totalItems : Nat
  processedItems : Nat
  failedItems : Nat
  successRate : ℚ
  errorRate : ℚ
  deriving DecidableEq

/-- Modelled from the spec: rate recomputation of the current
implementation, run after every processed or failed increment: both rates
are 0 while processedItems + failedItems is 0, otherwise
processed / (processed + failed) * 100 and failed / (processed + failed)
* 100. -/
def recomputeRates (s : AsyncQueueStats) : AsyncQueueStats :=
  if s.processedItems + s.failedItems = 0 then
    { s with successRate := 0, errorRate := 0 }
  else
    { s with
      successRate :=
        (s.processedItems : ℚ) / ((s.processedItems : ℚ) + (s.failedItems : ℚ)) * 100,
      errorRate :=
        (s.failedItems : ℚ) / ((s.processedItems : ℚ) + (s.failedItems : ℚ)) * 100 }

/-- Modelled from the spec: the three statistics updates of the current
implementation: an accepted (non-rejected) enqueue, a dequeued element
reaching a successful final outcome, and one reaching a failed final
outcome. -/
inductive StatOp where
  | accepted
  | processed
  | failed
  deriving DecidableEq

/-- Modelled from the spec: one statistics update.  An accepted enqueue
increments totalItems only; a final outcome increments exactly one of
processedItems and failedItems and recomputes both rates. -/
def statStep (s : AsyncQueueStats) : StatOp → AsyncQueueStats
  | StatOp.accepted => { s with totalItems := s.totalItems + 1 }
  | StatOp.processed => recomputeRates { s with processedItems := s.processedItems + 1 }
  | StatOp.failed => recomputeRates { s with failedItems := s.failedItems + 1 }

/-- Modelled from the spec: the statistics of a fresh queue. -/
def initStats : AsyncQueueStats := ⟨0, 0, 0, 0, 0⟩

/-- Modelled from the spec: the statistics snapshot getStats returns after a
sequence of updates starting from a fresh queue. -/
def runStats (ops : List StatOp) : AsyncQueueStats :=
  ops.foldl statStep initStats

/-- Modelled from the spec: the statistics updates a drain performs, one per
terminal event: processed for a success, failed for an exhausted-retries
error, mutually exclusively. -/
def outcomeOps {T : Type} : List (QueueEventCall T) → List StatOp
  | [] => []
  | QueueEventCall.success _ :: rest => StatOp.processed :: outcomeOps rest
  | QueueEventCall.error _ :: rest => StatOp.failed :: outcomeOps rest
  | _ :: rest => outcomeOps rest

/-- startedItems distributes over trace concatenation. -/
theorem startedItems_append {T : Type} (l₁ l₂ : List (QueueEventCall T)) :
    startedItems (l₁ ++ l₂) = startedItems l₁ ++ startedItems l₂ := by
  induction l₁ with
  | nil => rfl
  | cons h t ih => cases h <;> simp [startedItems, ih]

/-- successEvents distributes over trace concatenation. -/
theorem successEvents_append {T : Type} (l₁ l₂ : List (QueueEventCall T)) :
    successEvents (l₁ ++ l₂) = successEvents l₁ ++ successEvents l₂ := by
  induction l₁ with
  | nil => rfl
  | cons h t ih => cases h <;> simp [successEvents, ih]

/-- errorEvents distributes over trace concatenation. -/
theorem errorEvents_append {T : Type} (l₁ l₂ : List (QueueEventCall T)) :
    errorEvents (l₁ ++ l₂) = errorEvents l₁ ++ errorEvents l₂ := by
  induction l₁ with
  | nil => rfl
  | cons h t ih => cases h <;> simp [errorEvents, ih]

/-- endedCount adds up over trace concatenation. -/
theorem endedCount_append {T : Type} (l₁ l₂ : List (QueueEventCall T)) :
    endedCount (l₁ ++ l₂) = endedCount l₁ + endedCount l₂ := by
  induction l₁ with
  | nil => simp [endedCount]
  | cons h t ih => cases h <;> (simp [endedCount, ih]; try omega)

/-- terminalItems distributes over trace concatenation. -/
theorem terminalItems_append {T : Type} (l₁ l₂ : List (QueueEventCall T)) :
    terminalItems (l₁ ++ l₂) = terminalItems l₁ ++ terminalItems l₂ := by
  induction l₁ with
  | nil => rfl
  | cons h t ih => cases h <;> simp [terminalItems, ih]

/-- outcomeOps distributes over trace concatenation. -/
theorem outcomeOps_append {T : Type} (l₁ l₂ : List (QueueEventCall T)) :
    outcomeOps (l₁ ++ l₂) = outcomeOps l₁ ++ outcomeOps l₂ := by
  induction l₁ with
  | nil => rfl
  | cons h t ih => cases h <;> simp [outcomeOps, ih]

/-- The retry loop of the source never fires the started or the end
handler: its trace holds no started event. -/
theorem processWithRetriesAux_started {T : Type} (consumer : Consumer T)
    (el : QueueElement T) :
    ∀ (r a : Nat), startedItems (processWithRetriesAux consumer el a r).2 = [] := by
  intro r
  induction r with
  | zero => intro a; rfl
  | succ r ih =>
    intro a
    cases hc : consumer el.item a with
    | resolved => simp [processWithRetriesAux, hc, startedItems]
    | rejected m =>
      by_cases hr : r = 0
      · simp [processWithRetriesAux, hc, hr, startedItems]
      · simp [processWithRetriesAux, hc, hr, startedItems, ih (a + 1)]

/-- The retry loop of the source never fires the end handler. -/
theorem processWithRetriesAux_ended {T : Type} (consumer : Consumer T)
    (el : QueueElement T) :
    ∀ (r a : Nat), endedCount (processWithRetriesAux consumer el a r).2 = 0 := by
  intro r
  induction r with
  | zero => intro a; rfl
  | succ r ih =>
    intro a
    cases hc : consumer el.item a with
    | resolved => simp [processWithRetriesAux, hc, endedCount]
    | rejected m =>
      by_cases hr : r = 0
      · simp [processWithRetriesAux, hc, hr, endedCount]
      · simp [processWithRetriesAux, hc, hr, endedCount, ih (a + 1)]

/-- Under a consumer that rejects every invocation with message m, the
source retry loop entered with at least one retry left fires exactly one
event: the error event carrying the element with errorType error and the
message (with the falsy-message fallback applied). -/
theorem processWithRetriesAux_const_reject {T : Type} (m : String)
    (el : QueueElement T) :
    ∀ (r a : Nat),
      (processWithRetriesAux (fun _ _ => PromiseResult.rejected m) el a (r + 1)).2
        = [QueueEventCall.error
            { el with error := some ⟨QueueResultError.error, jsMsg m⟩ }] := by
  intro r
  induction r with
  | zero => intro a; simp [processWithRetriesAux]
  | succ r ih =>
    intro a
    simp only [processWithRetriesAux]
    simpa using ih (a + 1)

/-- A per-element processing step never fires started. -/
theorem processElement_started {T : Type} (opts : AsyncQueueOptions)
    (consumer : Consumer T) (el : QueueElement T) :
    startedItems (processElement opts consumer el).2 = [] := by
  by_cases h : opts.maxRetries = 0
  · cases hc : consumer el.item 0 <;> simp [processElement, h, hc, startedItems]
  · simp [processElement, h, processWithRetries, processWithRetriesAux_started]

/-- A per-element processing step never fires the end handler. -/
theorem processElement_ended {T : Type} (opts : AsyncQueueOptions)
    (consumer : Consumer T) (el : QueueElement T) :
    endedCount (processElement opts consumer el).2 = 0 := by
  by_cases h : opts.maxRetries = 0
  · cases hc : consumer el.item 0 <;> simp [processElement, h, hc, endedCount]
  · simp [processElement, h, processWithRetries, processWithRetriesAux_ended]

/-- Under a consumer that rejects every invocation with message m, a
per-element step fires exactly the error event for that element, whatever
the retry configuration. -/
theorem processElement_const_reject {T : Type} (opts : AsyncQueueOptions)
    (m : String) (el : QueueElement T) :
    (processElement opts (fun _ _ => PromiseResult.rejected m) el).2
      = [QueueEventCall.error
          { el with error := some ⟨QueueResultError.error, jsMsg m⟩ }] := by
  by_cases h : opts.maxRetries = 0
  · simp [processElement, h]
  · obtain ⟨r, hr⟩ := Nat.exists_eq_succ_of_ne_zero h
    simp [processElement, h, processWithRetries, hr,
      processWithRetriesAux_const_reject m el r 0]

/-- Under a consumer that resolves every invocation, a per-element step
makes exactly one consumer call (attempt 0) and fires exactly the success
event, whatever the retry configuration. -/
theorem processElement_const_resolved {T : Type} (opts : AsyncQueueOptions)
    (el : QueueElement T) :
    processElement opts (fun _ _ => PromiseResult.resolved) el
      = ([(el.item, 0)], [QueueEventCall.success el]) := by
  by_cases h : opts.maxRetries = 0
  · simp [processElement, h]
  · obtain ⟨r, hr⟩ := Nat.exists_eq_succ_of_ne_zero h
    simp [processElement, h, processWithRetries, hr, processWithRetriesAux]

/-- The consumer calls of the sequential drain are the per-element call
blocks, concatenated in buffer order. -/
theorem consumeSeqAux_calls {T : Type} (opts : AsyncQueueOptions)
    (consumer : Consumer T) (items : List (QueueElement T)) :
    (consumeSeqAux opts consumer items).1
      = items.flatMap (fun el => (processElement opts consumer el).1) := by
  induction items with
  | nil => rfl
  | cons el rest ih => simp [consumeSeqAux, ih]

/-- The event trace of the sequential drain is, element by element in
buffer order, the started event followed by that element's own processing
events. -/
theorem consumeSeqAux_events {T : Type} (opts : AsyncQueueOptions)
    (consumer : Consumer T) (items : List (QueueElement T)) :
    (consumeSeqAux opts consumer items).2
      = items.flatMap
          (fun el => QueueEventCall.started el.item :: (processElement opts consumer el).2) := by
  induction items with
  | nil => rfl
  | cons el rest ih => simp [consumeSeqAux, ih]

/-- The spec-modelled retry loop fires exactly one terminal event per
element, always carrying the item of that element. -/
theorem retryLoopSpec_terminal {T : Type} (consumer : GuardedConsumer T)
    (el : QueueElement T) :
    ∀ (r a : Nat), terminalItems (retryLoopSpec consumer el a r) = [el.item] := by
  intro r
  induction r with
  | zero =>
    intro a
    cases hg : guardResult (consumer el.item a) <;>
      simp [retryLoopSpec, hg, terminalItems]
  | succ r ih =>
    intro a
    cases hg : guardResult (consumer el.item a) with
    | none => simp [retryLoopSpec, hg, terminalItems]
    | some m => simp [retryLoopSpec, hg, ih (a + 1)]

/-- The spec-modelled retry loop performs exactly one statistics outcome
update per element, mutually exclusively a success or a failure. -/
theorem retryLoopSpec_outcomeOps {T : Type} (consumer : GuardedConsumer T)
    (el : QueueElement T) :
    ∀ (r a : Nat), (outcomeOps (retryLoopSpec consumer el a r)).length = 1 := by
  intro r
  induction r with
  | zero =>
    intro a
    cases hg : guardResult (consumer el.item a) <;>
      simp [retryLoopSpec, hg, outcomeOps]
  | succ r ih =>
    intro a
    cases hg : guardResult (consumer el.item a) with
    | none => simp [retryLoopSpec, hg, outcomeOps]
    | some m => simp [retryLoopSpec, hg, ih (a + 1)]

/-- Under a consumer whose every attempt is beaten by the timer, the
spec-modelled retry loop fires exactly one event, whatever the number of
retries: the error event carrying errorType error and message Timeout. -/
theorem retryLoopSpec_all_timed_out {T : Type} (consumer : GuardedConsumer T)
    (el : QueueElement T) (h : ∀ x a, consumer x a = AttemptOutcome.timedOut) :
    ∀ (r a : Nat),
      retryLoopSpec consumer el a r
        = [QueueEventCall.error
            { el with error := some ⟨QueueResultError.error, "Timeout"⟩ }] := by
  intro r
  induction r with
  | zero => intro a; simp [retryLoopSpec, h el.item a, guardResult]
  | succ r ih =>
    intro a
    simp [retryLoopSpec, h el.item a, guardResult, ih (a + 1)]

/-- The spec-modelled drain processes each buffered element to completion:
the terminal events list the buffer items in order, one each. -/
theorem drainSpec_terminal {T : Type} (consumer : GuardedConsumer T)
    (maxRetries : Nat) (buf : List (QueueElement T)) :
    terminalItems (drainSpec consumer maxRetries buf) = buf.map QueueElement.item := by
  induction buf with
  | nil => rfl
  | cons el rest ih =>
    simp [drainSpec, terminalItems_append, terminalItems,
      retryLoopSpec_terminal consumer el maxRetries 0, ih]

/-- The spec-modelled drain performs exactly one statistics outcome update
per buffered element. -/
theorem drainSpec_outcomeOps {T : Type} (consumer : GuardedConsumer T)
    (maxRetries : Nat) (buf : List (QueueElement T)) :
    (outcomeOps (drainSpec consumer maxRetries buf)).length = buf.length := by
  induction buf with
  | nil => rfl
  | cons el rest ih =>
    simp [drainSpec, outcomeOps_append, outcomeOps,
      retryLoopSpec_outcomeOps consumer el maxRetries 0, ih]
    omega

/-- Whatever the schedule, the claimed elements in claim order followed by
the leftover buffer reconstitute the original buffer: no element is ever
duplicated or dropped by concurrent dequeues. -/
theorem runSched_partition {T : Type} :
    ∀ (sched : List Nat) (buf : List T),
      (runSched sched buf).1.map Prod.snd ++ (runSched sched buf).2 = buf := by
  intro sched
  induction sched with
  | nil => intro buf; simp [runSched]
  | cons w ws ih =>
    intro buf
    cases buf with
    | nil =>
      have h := ih ([] : List T)
      simpa [runSched] using h
    | cons x rest => simpa [runSched] using ih rest

/-- A schedule at least as long as the buffer drains it completely. -/
theorem runSched_drains {T : Type} :
    ∀ (sched : List Nat) (buf : List T),
      buf.length ≤ sched.length → (runSched sched buf).2 = [] := by
  intro sched
  induction sched with
  | nil =>
    intro buf h
    cases buf with
    | nil => rfl
    | cons x rest => simp at h
  | cons w ws ih =>
    intro buf h
    cases buf with
    | nil => simpa [runSched] using ih [] (by simp)
    | cons x rest =>
      simp only [runSched]
      exact ih rest (by simpa using Nat.le_of_succ_le_succ h)

/-- Every claim is made by a worker of the schedule. -/
theorem runSched_workers {T : Type} :
    ∀ (sched : List Nat) (buf : List T),
      ∀ p ∈ (runSched sched buf).1, p.1 ∈ sched := by
  intro sched
  induction sched with
  | nil => intro buf p hp; simp [runSched] at hp
  | cons w ws ih =>
    intro buf p hp
    cases buf with
    | nil =>
      simp only [runSched] at hp
      exact List.mem_cons_of_mem w (ih [] p hp)
    | cons x rest =>
      simp only [runSched, List.mem_cons] at hp
      rcases hp with h | h
      · simp [h]
      · exact List.mem_cons_of_mem w (ih rest p h)

/-- The exact rate invariant maintained by the spec-modelled statistics:
each rate always equals its recomputed value for the current counters. -/
def ratesInv (s : AsyncQueueStats) : Prop :=
  (s.successRate
      = if s.processedItems + s.failedItems = 0 then 0
        else (s.processedItems : ℚ) / ((s.processedItems : ℚ) + (s.failedItems : ℚ)) * 100)
  ∧ (s.errorRate
      = if s.processedItems + s.failedItems = 0 then 0
        else (s.failedItems : ℚ) / ((s.processedItems : ℚ) + (s.failedItems : ℚ)) * 100)

/-- Every statistics update preserves the rate invariant. -/
theorem statStep_ratesInv (s : AsyncQueueStats) (op : StatOp) (h : ratesInv s) :
    ratesInv (statStep s op) := by
  cases op with
  | accepted => exact h
  | processed =>
    constructor <;> simp [statStep, recomputeRates, ratesInv]
  | failed =>
    constructor <;> simp [statStep, recomputeRates, ratesInv]

/-- Folding any update sequence from a state satisfying the rate invariant
lands on a state satisfying it. -/
theorem foldl_ratesInv :
    ∀ (ops : List StatOp) (s : AsyncQueueStats),
      ratesInv s → ratesInv (ops.foldl statStep s) := by
  intro ops
  induction ops with
  | nil => intro s h; exact h
  | cons op rest ih => intro s h; exact ih _ (statStep_ratesInv s op h)

/-- Number of occurrences of one update kind in an update sequence. -/
def countOp (op : StatOp) : List StatOp → Nat
  | [] => 0
  | o :: rest => (if o = op then 1 else 0) + countOp op rest

/-- Recomputing the rates never touches the counters. -/
theorem recomputeRates_counters (s : AsyncQueueStats) :
    (recomputeRates s).totalItems = s.totalItems
    ∧ (recomputeRates s).processedItems = s.processedItems
    ∧ (recomputeRates s).failedItems = s.failedItems := by
  unfold recomputeRates
  split <;> exact ⟨rfl, rfl, rfl⟩

/-- The counters after folding an update sequence: totalItems grows by one
per accepted enqueue, processedItems by one per successful final outcome,
failedItems by one per failed final outcome. -/
theorem foldl_statStep_counters :
    ∀ (ops : List StatOp) (s : AsyncQueueStats),
      (ops.foldl statStep s).totalItems = s.totalItems + countOp StatOp.accepted ops
      ∧ (ops.foldl statStep s).processedItems
          = s.processedItems + countOp StatOp.processed ops
      ∧ (ops.foldl statStep s).failedItems = s.failedItems + countOp StatOp.failed ops := by
  intro ops
  induction ops with
  | nil => intro s; simp [countOp]
  | cons op rest ih =>
    intro s
    obtain ⟨h1, h2, h3⟩ := ih (statStep s op)
    refine ⟨?_, ?_, ?_⟩ <;>
      (simp only [List.foldl_cons, h1, h2, h3, countOp];
       cases op <;>
         (simp [statStep, (recomputeRates_counters _).1, (recomputeRates_counters _).2.1,
            (recomputeRates_counters _).2.2];
          try omega))

/-- The started events of a drain whose per-element trace is a started
event followed by one error event list the buffer items in order. -/
theorem startedItems_blocks {T : Type} (f : QueueElement T → QueueElement T) :
    ∀ (items : List (QueueElement T)),
      startedItems
          (items.flatMap fun el =>
            [QueueEventCall.started el.item, QueueEventCall.error (f el)])
        = items.map QueueElement.item := by
  intro items
  induction items with
  | nil => rfl
  | cons el rest ih =>
    rw [List.flatMap_cons, startedItems_append, ih]
    rfl

/-- The error events of such a drain carry exactly the per-element error
records, in order. -/
theorem errorEvents_blocks {T : Type} (f : QueueElement T → QueueElement T) :
    ∀ (items : List (QueueElement T)),
      errorEvents
          (items.flatMap fun el =>
            [QueueEventCall.started el.item, QueueEventCall.error (f el)])
        = items.map f := by
  intro items
  induction items with
  | nil => rfl
  | cons el rest ih =>
    rw [List.flatMap_cons, errorEvents_append, ih]
    rfl

/-- Such a drain fires no success event. -/
theorem successEvents_blocks {T : Type} (f : QueueElement T → QueueElement T) :
    ∀ (items : List (QueueElement T)),
      successEvents
          (items.flatMap fun el =>
            [QueueEventCall.started el.item, QueueEventCall.error (f el)])
        = [] := by
  intro items
  induction items with
  | nil => rfl
  | cons el rest ih =>
    rw [List.flatMap_cons, successEvents_append, ih]
    rfl

/-- Such a drain fires no end event. -/
theorem endedCount_blocks {T : Type} (f : QueueElement T → QueueElement T) :
    ∀ (items : List (QueueElement T)),
      endedCount
          (items.flatMap fun el =>
            [QueueEventCall.started el.item, QueueEventCall.error (f el)])
        = 0 := by
  intro items
  induction items with
  | nil => rfl
  | cons el rest ih =>
    rw [List.flatMap_cons, endedCount_append, ih]
    rfl

/-- The sequential drain loop itself never fires the end handler; the end
event comes only from the final line of consume. -/
theorem consumeSeqAux_ended {T : Type} (opts : AsyncQueueOptions)
    (consumer : Consumer T) :
    ∀ (items : List (QueueElement T)),
      endedCount (consumeSeqAux opts consumer items).2 = 0 := by
  intro items
  induction items with
  | nil => rfl
  | cons el rest ih =>
    simp [consumeSeqAux, endedCount_append, endedCount, processElement_ended, ih]

/-- Under a consumer whose every attempt times out, the spec-modelled drain
trace is, per element, a started event followed by the single Timeout error
event. -/
theorem drainSpec_all_timed_out {T : Type} (consumer : GuardedConsumer T)
    (h : ∀ x a, consumer x a = AttemptOutcome.timedOut) (R : Nat) :
    ∀ (items : List (QueueElement T)),
      drainSpec consumer R items
        = items.flatMap fun el =>
            [QueueEventCall.started el.item,
             QueueEventCall.error
               { el with error := some ⟨QueueResultError.error, "Timeout"⟩ }] := by
  intro items
  induction items with
  | nil => rfl
  | cons el rest ih =>
    simp [drainSpec, retryLoopSpec_all_timed_out consumer el h R 0, ih]

/-- Claim C1, code bug.  The claim: with maxRetries = R > 0 a dequeued
element is attempted at most R + 1 times, and with maxRetries = 2 and a
consumer failing exactly twice then succeeding, 3 attempts are made,
success fires once and the error handler never fires.  The source
processWithRetries decrements retriesLeft before checking exhaustion, so it
makes at most R attempts in total: below, with maxRetries = 2 and a
consumer that rejects attempts 0 and 1 and would resolve attempt 2, only
the two rejected attempts run, the error handler fires and success never
does.  The test suite in the tree (asyncQueue.test.ts, should retry failed
items) asserts attempts = 3 with success reached under maxRetries = 2,
agreeing with the claim against the code under src. -/
theorem C1_src_retries_stop_after_maxRetries_attempts :
    processWithRetries
        (fun _ a => if a < 2 then PromiseResult.rejected "boom" else PromiseResult.resolved)
        (⟨1, none⟩ : QueueElement Nat) 2
      = ([(1, 0), (1, 1)],
         [QueueEventCall.error ⟨1, some ⟨QueueResultError.error, "boom"⟩⟩]) := by
  rfl

/-- Claim C2, counterexample.  The claim says a timed-out attempt is
recorded as a failure with kind Timeout.  The source union QueueResultError
declares only maxConcurrent, maxQueueSize and error, with no Timeout kind,
and the test suite (should handle timeouts correctly) asserts errorType
error with errorMessage Timeout; in the spec-modelled drain, an element
whose only attempt is beaten by the timer yields an error event of the
generic kind error with the fixed message "Timeout". -/
theorem C2_timeout_reports_generic_error_kind :
    (startSpec (fun _ _ => AttemptOutcome.timedOut) 0
        ⟨false, [(⟨1, none⟩ : QueueElement Nat)]⟩).2
      = [QueueEventCall.started 1,
         QueueEventCall.error ⟨1, some ⟨QueueResultError.error, "Timeout"⟩⟩,
         QueueEventCall.ended] := by
  rfl

/-- Claim C2 as amended: every attempt runs under the timeout guard; an
attempt the timer beats is recorded as a failure with the generic errorType
error and the message "Timeout", the later settlement of the consumer being
discarded; a consumer that never settles yields, per element, exactly one
error event, carrying errorType error and message "Timeout", no success
event, and the single end event, whatever maxRetries is. -/
theorem C2_never_settling_consumer_times_out {T : Type}
    (consumer : GuardedConsumer T) (R : Nat) (items : List (QueueElement T))
    (h : ∀ x a, consumer x a = AttemptOutcome.timedOut) :
    errorEvents (startSpec consumer R ⟨false, items⟩).2
        = items.map
            (fun el => { el with error := some ⟨QueueResultError.error, "Timeout"⟩ })
    ∧ successEvents (startSpec consumer R ⟨false, items⟩).2 = []
    ∧ endedCount (startSpec consumer R ⟨false, items⟩).2 = 1 := by
  have hd := drainSpec_all_timed_out consumer h R items
  refine ⟨?_, ?_, ?_⟩ <;>
    simp [startSpec, hd, errorEvents_append, successEvents_append, endedCount_append,
      errorEvents_blocks, successEvents_blocks, endedCount_blocks,
      errorEvents, successEvents, endedCount]

/-- Witness for the amended claim C2 at a concrete input: one queued item,
maxRetries = 2, the consumer whose every attempt times out. -/
theorem C2_never_settling_consumer_times_out_witness :
    errorEvents
        (startSpec (fun _ _ => AttemptOutcome.timedOut) 2
          ⟨false, [(⟨7, none⟩ : QueueElement Nat)]⟩).2
      = [⟨7, some ⟨QueueResultError.error, "Timeout"⟩⟩] :=
  (C2_never_settling_consumer_times_out (fun _ _ => AttemptOutcome.timedOut) 2
      [⟨7, none⟩] (fun _ _ => rfl)).1

/-- Claim C3: starting from any buffer within capacity, an enqueue on a
buffer already holding maxQueueSize elements stores nothing and fires the
error event synchronously exactly once, with errorType maxQueueSize (the
kind the spec names QueueFull), message "Queue is full" and the rejected
item attached, returning normally; an enqueue on a buffer holding fewer
than maxQueueSize elements appends the item at the tail wrapped with no
error and fires nothing; and the buffer length stays at most maxQueueSize
after every enqueue. -/
theorem C3_enqueue_admission {T : Type} (opts : AsyncQueueOptions)
    (items : List (QueueElement T)) (x : T)
    (h : items.length ≤ opts.maxQueueSize) :
    (items.length = opts.maxQueueSize →
        enqueue opts items x
          = (items,
             [QueueEventCall.error
               ⟨x, some ⟨QueueResultError.maxQueueSize, "Queue is full"⟩⟩]))
    ∧ (items.length < opts.maxQueueSize →
        enqueue opts items x = (items ++ [⟨x, none⟩], []))
    ∧ (enqueue opts items x).1.length ≤ opts.maxQueueSize := by
  refine ⟨?_, ?_, ?_⟩
  · intro he
    unfold enqueue
    rw [if_pos (by omega)]
  · intro hl
    unfold enqueue
    rw [if_neg (by omega)]
  · unfold enqueue
    by_cases hc : items.length + 1 > opts.maxQueueSize
    · rw [if_pos hc]; exact h
    · rw [if_neg hc]; simp; omega

/-- Witness for claim C3 at a concrete input: capacity 2, a buffer of two
elements, so the third enqueue is rejected with the single error event. -/
theorem C3_enqueue_admission_witness :
    enqueue (⟨1, 2, 0, 1000⟩ : AsyncQueueOptions)
        ([⟨5, none⟩, ⟨6, none⟩] : List (QueueElement Nat)) 7
      = ([⟨5, none⟩, ⟨6, none⟩],
         [QueueEventCall.error ⟨7, some ⟨QueueResultError.maxQueueSize, "Queue is full"⟩⟩]) :=
  (C3_enqueue_admission (⟨1, 2, 0, 1000⟩ : AsyncQueueOptions)
      [⟨5, none⟩, ⟨6, none⟩] 7 (by decide)).1 (by decide)

/-- Claim C4: in sequential mode (the branch of consume taken when
maxConcurrent is at most 1) the drain handles elements strictly one at a
time in FIFO insertion order: its whole event trace is, element by element
in buffer order, the started event followed by the events of fully
processing that element (retries included), with the end event last; with
an always-resolving consumer the invocation trace lists the items in
insertion order, and in particular three enqueued items 1, 2, 3 are
recorded in the order 1, 2, 3. -/
theorem C4_sequential_fifo {T : Type} (opts : AsyncQueueOptions)
    (consumer : Consumer T) (items : List (QueueElement T)) :
    (consumeSeq opts consumer items).2
        = items.flatMap
            (fun el => QueueEventCall.started el.item :: (processElement opts consumer el).2)
          ++ [QueueEventCall.ended]
    ∧ (consumeSeq opts (fun _ _ => PromiseResult.resolved) items).1.map Prod.fst
        = items.map QueueElement.item
    ∧ (consumeSeq ⟨1, 1000, 0, 1000⟩ (fun _ _ => PromiseResult.resolved)
          ([⟨1, none⟩, ⟨2, none⟩, ⟨3, none⟩] : List (QueueElement Nat))).1.map Prod.fst
        = [1, 2, 3] := by
  refine ⟨?_, ?_, by rfl⟩
  · simp [consumeSeq, consumeSeqAux_events]
  · simp only [consumeSeq, consumeSeqAux_calls, processElement_const_resolved]
    induction items with
    | nil => rfl
    | cons el rest ih => simpa using ih

/-- Claim C5: in concurrent mode the drain spawns exactly maxConcurrent
workers sharing the buffer through atomic head dequeues; for every
interleaving of the dequeues of those workers that is long enough to drain
the buffer, the leftover buffer is empty, the claimed elements in claim
order are exactly the enqueued elements (so every element is claimed
exactly once: none duplicated, none skipped), and every claim belongs to
one of the n workers. -/
theorem C5_concurrent_claims_exactly_once {T : Type} (n : Nat)
    (sched : List Nat) (buf : List T) (_hn : 1 < n)
    (hw : ∀ w ∈ sched, w < n) (hlen : buf.length ≤ sched.length) :
    (runSched sched buf).2 = []
    ∧ (runSched sched buf).1.map Prod.snd = buf
    ∧ ∀ p ∈ (runSched sched buf).1, p.1 < n := by
  have h2 := runSched_drains sched buf hlen
  have h1 := runSched_partition (T := T) sched buf
  rw [h2] at h1
  exact ⟨h2, by simpa using h1,
    fun p hp => hw p.1 (runSched_workers sched buf p hp)⟩

/-- Witness for claim C5 at a concrete input: two workers, schedule
0, 1, 1, three buffered items. -/
theorem C5_concurrent_claims_exactly_once_witness :
    (runSched [0, 1, 1] [10, 20, 30]).1.map Prod.snd = [10, 20, 30] :=
  (C5_concurrent_claims_exactly_once 2 [0, 1, 1] [10, 20, 30] (by decide)
      (by decide) (by decide)).2.1

/-- Claim C6, code bug.  The claim: peek on an empty queue returns the
undefined value without throwing, and on a non-empty queue returns the
front item without removal.  The source line `return this.items[0].item;`
reads the item member of items[0], which on an empty buffer is undefined in
JavaScript, so the call throws a TypeError instead of returning undefined
(the sibling Queue class guards this and its declared return type
T | undefined promises a normal return).  On a non-empty buffer the front
item is returned; peek never mutates the buffer (it only reads). -/
theorem C6_peek_empty_throws :
    peek ([] : List (QueueElement Nat)) = Except.error "TypeError"
    ∧ peek ([⟨1, none⟩, ⟨2, none⟩] : List (QueueElement Nat)) = Except.ok 1 :=
  ⟨rfl, rfl⟩

/-- Claim C7: the drain entry point is guarded by the isRunning flag
(spec-modelled, the guard being part of the current implementation missing
from src): a second start call made at any point while a first drain is in
flight, that is while isRunning is still true, returns immediately as a
no-op, with no events and hence no element processed; the single first
call, from the idle state, processes every buffered element to completion
exactly once, so no element is ever processed twice across overlapping
calls. -/
theorem C7_second_start_is_noop {T : Type} (consumer : GuardedConsumer T)
    (R : Nat) (pending buf : List (QueueElement T)) :
    startSpec consumer R ⟨true, pending⟩ = (⟨true, pending⟩, [])
    ∧ terminalItems (startSpec consumer R ⟨false, buf⟩).2
        = buf.map QueueElement.item := by
  constructor
  · rfl
  · simp [startSpec, terminalItems_append, drainSpec_terminal, terminalItems]

/-- Claim C8 (statistics, spec-modelled: the record is part of the current
implementation missing from src): after any update sequence from a fresh
queue, totalItems counts the accepted enqueues, processedItems and
failedItems count the successful and failed final outcomes, both rates are
non-negative, both are 0 while no outcome has been recorded, and otherwise
each equals its count divided by the outcome total times 100, the two
summing to 100; and a drain records exactly one outcome update per
dequeued element. -/
theorem C8_stats_invariants (ops : List StatOp) :
    (runStats ops).totalItems = countOp StatOp.accepted ops
    ∧ (runStats ops).processedItems = countOp StatOp.processed ops
    ∧ (runStats ops).failedItems = countOp StatOp.failed ops
    ∧ 0 ≤ (runStats ops).successRate
    ∧ 0 ≤ (runStats ops).errorRate
    ∧ ((runStats ops).processedItems + (runStats ops).failedItems = 0 →
        (runStats ops).successRate = 0 ∧ (runStats ops).errorRate = 0)
    ∧ (0 < (runStats ops).processedItems + (runStats ops).failedItems →
        (runStats ops).successRate
            = ((runStats ops).processedItems : ℚ)
                / (((runStats ops).processedItems : ℚ) + ((runStats ops).failedItems : ℚ))
                * 100
          ∧ (runStats ops).errorRate
            = ((runStats ops).failedItems : ℚ)
                / (((runStats ops).processedItems : ℚ) + ((runStats ops).failedItems : ℚ))
                * 100
          ∧ (runStats ops).successRate + (runStats ops).errorRate = 100)
    ∧ ∀ {T : Type} (consumer : GuardedConsumer T) (Rt : Nat)
        (buf : List (QueueElement T)),
        (outcomeOps (drainSpec consumer Rt buf)).length = buf.length := by
  have hinv : ratesInv (runStats ops) :=
    foldl_ratesInv ops initStats ⟨by simp [initStats, ratesInv], by simp [initStats, ratesInv]⟩
  have hcnt := foldl_statStep_counters ops initStats
  obtain ⟨hs, he⟩ := hinv
  refine ⟨?_, ?_, ?_, ?_, ?_, ?_, ?_, ?_⟩
  · simpa [runStats, initStats] using hcnt.1
  · simpa [runStats, initStats] using hcnt.2.1
  · simpa [runStats, initStats] using hcnt.2.2
  · rw [hs]
    split
    · exact le_refl 0
    · exact mul_nonneg (div_nonneg (Nat.cast_nonneg _) (by positivity)) (by norm_num)
  · rw [he]
    split
    · exact le_refl 0
    · exact mul_nonneg (div_nonneg (Nat.cast_nonneg _) (by positivity)) (by norm_num)
  · intro h0
    rw [hs, he, if_pos h0, if_pos h0]
    exact ⟨rfl, rfl⟩
  · intro hpos
    have hne : (runStats ops).processedItems + (runStats ops).failedItems ≠ 0 :=
      Nat.pos_iff_ne_zero.mp hpos
    have hq : ((runStats ops).processedItems : ℚ) + ((runStats ops).failedItems : ℚ) ≠ 0 := by
      have := Nat.cast_ne_zero (R := ℚ).mpr hne
      push_cast at this
      exact this
    rw [hs, he, if_neg hne, if_neg hne]
    refine ⟨rfl, rfl, ?_⟩
    field_simp
    ring
  · intro T consumer Rt buf
    exact drainSpec_outcomeOps consumer Rt buf

/-- Witness for claim C8 at a concrete input: one accepted enqueue followed
by one successful outcome gives a positive outcome total whose two rates
sum to 100. -/
theorem C8_stats_invariants_witness :
    (runStats [StatOp.accepted, StatOp.processed]).successRate
        + (runStats [StatOp.accepted, StatOp.processed]).errorRate = 100 :=
  (((C8_stats_invariants
      [StatOp.accepted, StatOp.processed]).2.2.2.2.2.2.1 (by decide)).2.2)

/-- Claim C9: a consumer exception never escapes element processing in the
sequential drain.  Under a consumer that throws on every invocation with
message m, every buffered element still fires its started event in order,
every element fires exactly one error event carrying errorType error (the
kind the spec names ProcessingFailure) and the thrown message (with the
falsy fallback of the source), no success event fires, and the single end
event still fires after the whole buffer is drained; the drain itself is a
total function of the buffer, never aborted by the failures. -/
theorem C9_consumer_exceptions_are_local {T : Type} (opts : AsyncQueueOptions)
    (m : String) (items : List (QueueElement T)) :
    startedItems (consumeSeq opts (fun _ _ => PromiseResult.rejected m) items).2
        = items.map QueueElement.item
    ∧ errorEvents (consumeSeq opts (fun _ _ => PromiseResult.rejected m) items).2
        = items.map (fun el => { el with error := some ⟨QueueResultError.error, jsMsg m⟩ })
    ∧ successEvents (consumeSeq opts (fun _ _ => PromiseResult.rejected m) items).2 = []
    ∧ endedCount (consumeSeq opts (fun _ _ => PromiseResult.rejected m) items).2 = 1 := by
  have hb : (consumeSeqAux opts (fun _ _ => PromiseResult.rejected m) items).2
      = items.flatMap fun el =>
          [QueueEventCall.started el.item,
           QueueEventCall.error { el with error := some ⟨QueueResultError.error, jsMsg m⟩ }] := by
    rw [consumeSeqAux_events]
    simp only [processElement_const_reject]
  refine ⟨?_, ?_, ?_, ?_⟩ <;>
    simp [consumeSeq, hb, startedItems_append, errorEvents_append, successEvents_append,
      endedCount_append, startedItems_blocks, errorEvents_blocks, successEvents_blocks,
      endedCount_blocks, startedItems, errorEvents, successEvents, endedCount]

/-- Claim C10: one consume call fires the end handler exactly once.  On an
already empty buffer the drain makes no consumer call and fires no
started, success or error event: the whole trace is the single end event;
and on every buffer the trace of one sequential consume call holds exactly
one end event. -/
theorem C10_end_event_fires_once {T : Type} (opts : AsyncQueueOptions)
    (consumer : Consumer T) :
    consumeSeq opts consumer ([] : List (QueueElement T)) = ([], [QueueEventCall.ended])
    ∧ ∀ (items : List (QueueElement T)),
        endedCount (consumeSeq opts consumer items).2 = 1 := by
  constructor
  · rfl
  · intro items
    simp [consumeSeq, endedCount_append, endedCount, consumeSeqAux_ended]

end MJS
